import Mathlib

/-!
Verification development for the pumpfun-sqd-indexer repository.

The definitions below are a shallow embedding of the repository's batch
processing core: the per-batch entity cache (`src/store/memory.store.ts`),
the domain services (`src/services/*.service.ts`) and the batch orchestrator
(`src/processor.ts`).  TypeScript `bigint` values are modelled as `Int`,
`BigDecimal` values as `Rat` (the repository only ever divides by `10^9`,
which is exact in decimal arithmetic), `Date` values as `Int` epoch
timestamps, and JavaScript `Map` objects as association lists: `set`
replaces the entry of an existing key in place (a JS `Map` holds each key
at most once) or appends a new entry at the end, preserving insertion order.
-/

namespace PumpIndexer

/-- JavaScript `Map.get`: the value stored under a key, if any. -/
def mapGet {α : Type} : List (String × α) → String → Option α
  | [], _ => none
  | p :: t, k => if p.1 == k then some p.2 else mapGet t k

/-- JavaScript `Map.has`. -/
def mapHas {α : Type} : List (String × α) → String → Bool
  | [], _ => false
  | p :: t, k => p.1 == k || mapHas t k

/-- JavaScript `Map.set`: overwrite the entry of an existing key in place
(keeping insertion order), otherwise append a new entry at the end. -/
def mapSet {α : Type} : List (String × α) → String → α → List (String × α)
  | [], k, v => [(k, v)]
  | p :: t, k, v => if p.1 == k then (k, v) :: t else p :: mapSet t k v

/-- A JavaScript `Map` never holds two entries with the same key. -/
def keysNodup {α : Type} (m : List (String × α)) : Prop :=
  (m.map Prod.fst).Nodup

theorem mapGet_mapSet_self {α : Type} (m : List (String × α)) (k : String) (v : α) :
    mapGet (mapSet m k v) k = some v := by
  induction m with
  | nil => simp [mapGet, mapSet]
  | cons p t ih =>
    by_cases hp : p.1 = k
    · simp [mapGet, mapSet, hp]
    · simp [mapGet, mapSet, hp, ih]

theorem mapGet_mapSet_ne {α : Type} (m : List (String × α)) (k k2 : String) (v : α)
    (h : k ≠ k2) : mapGet (mapSet m k v) k2 = mapGet m k2 := by
  induction m with
  | nil => simp [mapGet, mapSet, h]
  | cons p t ih =>
    by_cases hp : p.1 = k
    · simp [mapGet, mapSet, hp, h]
    · by_cases hp2 : p.1 = k2
      · simp [mapGet, mapSet, hp, hp2, Ne.symm h]
      · simp [mapGet, mapSet, hp, hp2, ih]

theorem mapHas_mapSet_self {α : Type} (m : List (String × α)) (k : String) (v : α) :
    mapHas (mapSet m k v) k = true := by
  induction m with
  | nil => simp [mapHas, mapSet]
  | cons p t ih =>
    by_cases hp : p.1 = k
    · simp [mapHas, mapSet, hp]
    · simp [mapHas, mapSet, hp, ih]

theorem mapSet_count_one {α : Type} (m : List (String × α)) (k : String) (v : α)
    (h : keysNodup m) :
    ((mapSet m k v).filter (fun p => p.1 == k)).length = 1 := by
  induction m with
  | nil => simp [mapSet]
  | cons p t ih =>
    have hnd : keysNodup t := by
      simpa [keysNodup] using (List.nodup_cons.mp h).2
    have hmem : p.1 ∉ t.map Prod.fst := (List.nodup_cons.mp h).1
    by_cases hp : p.1 = k
    · have hfilt : (t.filter (fun q => q.1 == k)) = [] := by
        rw [List.filter_eq_nil_iff]
        intro q hq
        have hqmem : q.1 ∈ t.map Prod.fst := List.mem_map_of_mem Prod.fst hq
        intro hqk
        apply hmem
        rwa [eq_of_beq hqk, ← hp] at hqmem
      simp [mapSet, hp, List.filter, hfilt]
    · simp only [mapSet, show (p.1 == k) = false by simp [hp], Bool.false_eq_true, if_false]
      simpa [List.filter, show (p.1 == k) = false by simp [hp]] using ih hnd

theorem keysNodup_mapSet {α : Type} (m : List (String × α)) (k : String) (v : α)
    (h : keysNodup m) : keysNodup (mapSet m k v) := by
  induction m with
  | nil => simp [mapSet, keysNodup]
  | cons p t ih =>
    have hnd : keysNodup t := by
      simpa [keysNodup] using (List.nodup_cons.mp h).2
    have hmem : p.1 ∉ t.map Prod.fst := (List.nodup_cons.mp h).1
    by_cases hp : p.1 = k
    · have hknotin : k ∉ t.map Prod.fst := by rwa [hp] at hmem
      have hset : mapSet (p :: t) k v = (k, v) :: t := by simp [mapSet, hp]
      rw [keysNodup, hset, List.map_cons]
      exact List.nodup_cons.mpr ⟨hknotin, hnd⟩
    · have hknot : ∀ q ∈ mapSet t k v, q.1 = p.1 → False := by
        intro q hq hqp
        -- every key of `mapSet t k v` is either `k` or a key of `t`
        have hkeys : q.1 = k ∨ q.1 ∈ t.map Prod.fst := by
          clear ih hmem hnd h
          induction t with
          | nil => simp [mapSet] at hq; simp [hq]
          | cons r s ihs =>
            by_cases hr : r.1 = k
            · simp only [mapSet, hr, beq_self_eq_true, if_true] at hq
              rcases List.mem_cons.mp hq with h1 | h1
              · left; rw [h1]
              · right; exact List.mem_map_of_mem Prod.fst (List.mem_cons_of_mem r h1)
            · simp only [mapSet, show (r.1 == k) = false by simp [hr], Bool.false_eq_true,
                if_false] at hq
              rcases List.mem_cons.mp hq with h1 | h1
              · right; rw [h1]; exact List.mem_map_of_mem Prod.fst (List.mem_cons_self r s)
              · rcases ihs h1 with h2 | h2
                · left; exact h2
                · right
                  rcases List.mem_map.mp h2 with ⟨u, hu, hu2⟩
                  exact List.mem_map.mpr ⟨u, List.mem_cons_of_mem r hu, hu2⟩
        rcases hkeys with h1 | h1
        · exact hp (hqp ▸ h1.symm ▸ rfl)
        · exact hmem (hqp ▸ h1)
      have hnotin : p.1 ∉ (mapSet t k v).map Prod.fst := by
        intro hcon
        rcases List.mem_map.mp hcon with ⟨q, hq, hq2⟩
        exact hknot q hq hq2
      have hset : mapSet (p :: t) k v = p :: mapSet t k v := by simp [mapSet, hp]
      rw [keysNodup, hset, List.map_cons]
      refine List.nodup_cons.mpr ⟨hnotin, ?_⟩
      exact ih hnd

/-!
## Domain records

Modelled from `src/model/generated/*.model.ts` (TypeORM entity classes).
A bonding curve's `token` column either holds a token-id string or a
`PumpToken` entity object, mirroring the `typeof curve.token === 'string'`
branches in `src/services/bondingCurve.service.ts`.
-/

/-- `PumpToken` entity (`pumpToken.model.ts`). -/
structure PumpToken where
  id : String
  name : String
  symbol : String
  decimals : Int
  creator : String
  status : String
  createdAt : Int
  updatedAt : Int
deriving Repr, DecidableEq

/-- A curve's `token` field: a raw id string or a `PumpToken` entity object. -/
inductive TokenRef where
  | byId (s : String)
  | byEntity (t : PumpToken)
deriving Repr, DecidableEq

/-- JavaScript string conversion of a `token` reference:
`String(x)` of a plain entity object is the string `"[object Object]"`
(default `Object.prototype.toString`), while a string converts to itself.
This models `typeof curve.token === 'string' ? curve.token : curve.token.toString()`
at `src/services/bondingCurve.service.ts:383-385`. -/
def TokenRef.jsToString : TokenRef → String
  | .byId s => s
  | .byEntity _ => "[object Object]"

/-- `BondingCurve` entity (`bondingCurve.model.ts`). -/
structure BondingCurve where
  id : String
  token : Option TokenRef
  virtualSolReserves : Int
  virtualTokenReserves : Int
  realSolReserves : Int
  realTokenReserves : Int
  tokenTotalSupply : Int
  feeBasisPoints : Int
  createdAt : Int
  updatedAt : Int
deriving Repr, DecidableEq

/-- Decoded trade event payload (`tradeEventInstruction` layout in
`src/abi/pump-fun/instructions.ts`; amounts are unsigned 64-bit on chain). -/
structure TradeEvent where
  mint : String
  solAmount : Int
  tokenAmount : Int
  isBuy : Bool
  user : String
  virtualSolReserves : Int
  virtualTokenReserves : Int
deriving Repr, DecidableEq

/-!
## Claim C1 — curve reserve updates in `processTradeInstruction`

`src/services/trade.service.ts:262-321`: when the bonding curve exists, the
trade's signed delta is applied to the real reserves and both are clamped at
zero; when it does not exist, a curve is synthesized carrying the *signed*
delta (negative for the outgoing side) with no clamping.
-/

/-- The existing-curve branch of `processTradeInstruction`
(`src/services/trade.service.ts:267-295`): start from the stored real
reserves, apply the trade delta, clamp each at zero, and overwrite the
virtual reserves with the values from the event. -/
def tradeUpdateExistingCurve (curve : BondingCurve) (ev : TradeEvent) (ts : Int) :
    BondingCurve :=
  let rs0 := if ev.isBuy then curve.realSolReserves + ev.solAmount
             else curve.realSolReserves - ev.solAmount
  let rt0 := if ev.isBuy then curve.realTokenReserves - ev.tokenAmount
             else curve.realTokenReserves + ev.tokenAmount
  let rs := if rs0 < 0 then 0 else rs0
  let rt := if rt0 < 0 then 0 else rt0
  { curve with
    virtualSolReserves := ev.virtualSolReserves
    virtualTokenReserves := ev.virtualTokenReserves
    realSolReserves := rs
    realTokenReserves := rt
    updatedAt := ts }

/-- The missing-curve branch of `processTradeInstruction`
(`src/services/trade.service.ts:296-318`): synthesize a curve whose real
reserves carry the signed trade delta, with no clamping. -/
def tradeSynthesizeCurve (curveId : String) (ev : TradeEvent) (ts : Int) :
    BondingCurve :=
  { id := curveId
    token := none
    virtualSolReserves := ev.virtualSolReserves
    virtualTokenReserves := ev.virtualTokenReserves
    realSolReserves := if ev.isBuy then ev.solAmount else -ev.solAmount
    realTokenReserves := if ev.isBuy then -ev.tokenAmount else ev.tokenAmount
    tokenTotalSupply := 1000000000
    feeBasisPoints := 30
    createdAt := ts
    updatedAt := ts }

/-- The curve effect of one trade instruction
(`src/services/trade.service.ts:262-321`). -/
def processTradeCurveEffect (curve : Option BondingCurve) (curveId : String)
    (ev : TradeEvent) (ts : Int) : BondingCurve :=
  match curve with
  | some c => tradeUpdateExistingCurve c ev ts
  | none => tradeSynthesizeCurve curveId ev ts

/-- States of one curve along a trade sequence, the trade at each step being
applied via `processTradeInstruction` to the state left by the previous step
(the first step synthesizes the curve when it does not yet exist). -/
def tradeCurveTrace (curve : Option BondingCurve) (curveId : String) :
    List (TradeEvent × Int) → List BondingCurve
  | [] => []
  | (ev, ts) :: rest =>
      let c := processTradeCurveEffect curve curveId ev ts
      c :: tradeCurveTrace (some c) curveId rest

/-- A concrete buy event for the C1 counterexample. -/
def c1BuyEvent : TradeEvent :=
  { mint := "M", solAmount := 5, tokenAmount := 7, isBuy := true, user := "U"
    virtualSolReserves := 100, virtualTokenReserves := 200 }

/-- Claim C1, counterexample: a buy processed while the curve does not yet
exist synthesizes a curve with `realTokenReserves = -7 < 0`, so the real
reserves are not non-negative after every instruction, contradicting the
claim for the synthesized-curve case. -/
theorem c1_counterexample :
    (processTradeCurveEffect none "C" c1BuyEvent 0).realTokenReserves = -7 ∧
    ¬ (0 ≤ (processTradeCurveEffect none "C" c1BuyEvent 0).realTokenReserves) := by
  constructor
  · rfl
  · decide

/-- Claim C1, amended: whenever a buy/sell instruction is applied to a curve
that already exists, the clamped update leaves both real reserves
non-negative; hence every state along a trade sequence is non-negative except
possibly the state produced by the initial synthesis step, whose real
reserves carry the raw signed delta. -/
theorem c1_amended (curve : Option BondingCurve) (curveId : String)
    (evs : List (TradeEvent × Int)) (i : Nat)
    (hi : i + 1 < (tradeCurveTrace curve curveId evs).length) :
    0 ≤ ((tradeCurveTrace curve curveId evs).get ⟨i + 1, hi⟩).realSolReserves ∧
    0 ≤ ((tradeCurveTrace curve curveId evs).get ⟨i + 1, hi⟩).realTokenReserves := by
  -- every element of the trace from position 1 on is produced by
  -- `tradeUpdateExistingCurve`, which clamps both reserves at zero
  have key : ∀ (c : BondingCurve) (ev : TradeEvent) (ts : Int),
      0 ≤ (tradeUpdateExistingCurve c ev ts).realSolReserves ∧
      0 ≤ (tradeUpdateExistingCurve c ev ts).realTokenReserves := by
    intro c ev ts
    simp only [tradeUpdateExistingCurve]
    constructor <;> split <;> omega
  induction evs generalizing curve i with
  | nil => simp [tradeCurveTrace] at hi
  | cons p rest ih =>
    match i with
    | 0 =>
      -- the state at position 1 is the second trade applied to the (now
      -- existing) curve produced by the first trade
      simp only [tradeCurveTrace] at hi ⊢
      match rest, hi with
      | (ev2, ts2) :: rest2, _ =>
        simp only [tradeCurveTrace, List.get]
        exact key _ ev2 ts2
    | Nat.succ j =>
      simp only [tradeCurveTrace] at hi ⊢
      exact ih (some (processTradeCurveEffect curve curveId p.1 p.2)) j
        (by simpa using hi)

/-- Witness for `c1_amended`: after a synthesis step and a follow-up sell on
the same curve, the state at position 1 of the trace has non-negative real
reserves. -/
theorem c1_amended_witness :
    0 ≤ ((tradeCurveTrace none "C" [(c1BuyEvent, 0), (c1BuyEvent, 1)]).get
          ⟨1, by decide⟩).realSolReserves ∧
    0 ≤ ((tradeCurveTrace none "C" [(c1BuyEvent, 0), (c1BuyEvent, 1)]).get
          ⟨1, by decide⟩).realTokenReserves :=
  c1_amended none "C" [(c1BuyEvent, 0), (c1BuyEvent, 1)] 0 (by decide)

/-!
## Claim C3 — `MemoryStore.save` with insert/update-list separation

`src/store/memory.store.ts` (insert/update-list variant): a store keeps two
JS `Map`s, `updateList` (entities known to exist in the database, called
`pending_existing` in the specification) and `insertList` (entities new to
this batch, called `pending_new`).  `save(entity)` overwrites in
`updateList` when the id is already there, else upserts into `insertList`.
-/

/-- The two pending maps of a `MemoryStore` (insert/update-list variant). -/
structure MemoryStore (α : Type) where
  insertList : List (String × α)
  updateList : List (String × α)
deriving Repr, DecidableEq

/-- `MemoryStore.save` (`src/store/memory.store.ts:205-215`): if the id is
in `updateList` overwrite it there, otherwise set it in `insertList`. -/
def MemoryStore.save {α : Type} (s : MemoryStore α) (id : String) (e : α) :
    MemoryStore α :=
  if mapHas s.updateList id then
    { s with updateList := mapSet s.updateList id e }
  else
    { s with insertList := mapSet s.insertList id e }

/-- Claim C3: saving two entities with the same id, when the id is not in
`pending_existing`, leaves exactly one `pending_new` record for that id,
holding the second entity, and leaves `pending_existing` untouched; and when
the id is in `pending_existing`, `save` overwrites there and leaves
`pending_new` untouched. -/
theorem c3_save_upsert {α : Type} (s : MemoryStore α) (id : String) (e1 e2 : α)
    (hins : keysNodup s.insertList) (hnot : mapHas s.updateList id = false) :
    (mapGet ((s.save id e1).save id e2).insertList id = some e2 ∧
     (((s.save id e1).save id e2).insertList.filter (fun p => p.1 == id)).length = 1 ∧
     ((s.save id e1).save id e2).updateList = s.updateList) ∧
    (∀ (t : MemoryStore α), mapHas t.updateList id = true →
      (t.save id e2).insertList = t.insertList ∧
      mapGet (t.save id e2).updateList id = some e2) := by
  constructor
  · have h1 : s.save id e1 =
        { s with insertList := mapSet s.insertList id e1 } := by
      simp [MemoryStore.save, hnot]
    have hnot2 : mapHas ({ s with insertList := mapSet s.insertList id e1 } :
        MemoryStore α).updateList id = false := hnot
    have h2 : (s.save id e1).save id e2 =
        { s with insertList := mapSet (mapSet s.insertList id e1) id e2 } := by
      rw [h1]
      simp [MemoryStore.save, hnot2]
    refine ⟨?_, ?_, ?_⟩
    · rw [h2]
      exact mapGet_mapSet_self _ id e2
    · rw [h2]
      exact mapSet_count_one _ id e2 (keysNodup_mapSet _ id e1 hins)
    · rw [h2]
  · intro t hhas
    constructor
    · simp [MemoryStore.save, hhas]
    · simp only [MemoryStore.save, hhas, if_true]
      exact mapGet_mapSet_self _ id e2

/-- Witness for `c3_save_upsert` at a concrete store: the empty store, two
integer entities under id `"a"`, and a second store whose `updateList`
already holds `"a"`. -/
theorem c3_save_upsert_witness :
    (mapGet (((⟨[], []⟩ : MemoryStore Int).save "a" 1 |>.save "a" 2)).insertList "a"
        = some 2 ∧
     ((((⟨[], []⟩ : MemoryStore Int).save "a" 1 |>.save "a" 2)).insertList.filter
        (fun p => p.1 == "a")).length = 1 ∧
     (((⟨[], []⟩ : MemoryStore Int).save "a" 1 |>.save "a" 2)).updateList = [] ) ∧
    (∀ (t : MemoryStore Int), mapHas t.updateList "a" = true →
      (t.save "a" 2).insertList = t.insertList ∧
      mapGet (t.save "a" 2).updateList "a" = some 2) := by
  have h := c3_save_upsert (⟨[], []⟩ : MemoryStore Int) "a" 1 2
    (by simp [keysNodup]) (by decide)
  exact h

/-!
## Claim C4 — flush ordering in `StoreManager.save`

`src/store/memory.store.ts` (insert/update-list variant), `StoreManager.save`:
the stores are flushed in the fixed order given by `flushOrder`, skipping
stores that are absent or empty.  `flushOrder` contains exactly six entity
kinds; `WalletStats` and `WalletTokenStats` are not in the list, so their
stores are never flushed by `StoreManager.save`.
-/

/-- The explicit flush order of `StoreManager.save`
(`src/store/memory.store.ts`, flush-order variant, lines 301-318). -/
def flushOrder : List String :=
  ["GlobalConfig", "PumpToken", "BondingCurve", "Trade", "TokenCreated",
   "TokenCompleted"]

/-- Whether a named store exists and holds at least one pending entity
(`store?.getCounts().total > 0`). -/
def storeNonempty {α : Type} (stores : List (String × List α)) (name : String) :
    Bool :=
  match mapGet stores name with
  | some es => decide (0 < es.length)
  | none => false

/-- `StoreManager.save`: the sequence of per-kind bulk writes issued to the
durable store, in issue order.  Each entry pairs the entity kind with the
entities flushed for it. -/
def storeManagerSave {α : Type} (stores : List (String × List α)) :
    List (String × List α) :=
  flushOrder.filterMap (fun name =>
    match mapGet stores name with
    | some es => if 0 < es.length then some (name, es) else none
    | none => none)

theorem filterMap_keys_eq_filter {α : Type} (l : List String)
    (f : String → Option (String × List α)) (p : String → Bool)
    (v : String → List α)
    (hf : ∀ n, f n = if p n then some (n, v n) else none) :
    (l.filterMap f).map Prod.fst = l.filter p := by
  induction l with
  | nil => simp
  | cons a t ih =>
    by_cases ha : p a
    · simp [List.filterMap_cons, hf a, ha, ih]
    · simp [List.filterMap_cons, hf a, ha, ih]

theorem storeManagerSave_keys {α : Type} (stores : List (String × List α)) :
    (storeManagerSave stores).map Prod.fst =
      flushOrder.filter (storeNonempty stores) := by
  apply filterMap_keys_eq_filter flushOrder _ (storeNonempty stores)
    (fun n => (mapGet stores n).getD [])
  intro n
  cases h : mapGet stores n with
  | none => simp [storeNonempty, h]
  | some es =>
    by_cases hl : 0 < es.length
    · simp [storeNonempty, h, hl]
    · simp [storeNonempty, h, hl]

/-- A pending `WalletStats` store holding one entity, used to exhibit that
`StoreManager.save` never writes it. -/
def c4DemoStores : List (String × List Int) := [("WalletStats", [7])]

/-- Claim C4, counterexample: with a non-empty `WalletStats` store pending,
`StoreManager.save` issues no write at all for `WalletStats` — the claimed
final flush group `TokenCreated/TokenCompleted/WalletStats` does not include
`WalletStats` in the code's `flushOrder`, so such entities are never written
in the flush cycle. -/
theorem c4_counterexample :
    storeNonempty c4DemoStores "WalletStats" = true ∧
    "WalletStats" ∉ (storeManagerSave c4DemoStores).map Prod.fst := by
  constructor
  · decide
  · decide

/-- Claim C4, amended: the kinds written by `StoreManager.save` are exactly
the non-empty stores among the fixed six-kind order `GlobalConfig, PumpToken,
BondingCurve, Trade, TokenCreated, TokenCompleted` (WalletStats is absent
from the order), and in particular the write sequence never contains a
`Trade` write followed later by a `PumpToken` write: a Trade is never
physically written before the Token kind in the same flush cycle. -/
theorem c4_amended {α : Type} (stores : List (String × List α)) :
    (storeManagerSave stores).map Prod.fst =
      flushOrder.filter (storeNonempty stores) ∧
    ¬ List.Sublist ["Trade", "PumpToken"] ((storeManagerSave stores).map Prod.fst) := by
  refine ⟨storeManagerSave_keys stores, ?_⟩
  intro hbad
  rw [storeManagerSave_keys stores] at hbad
  have hsub : List.Sublist ["Trade", "PumpToken"] flushOrder :=
    hbad.trans (List.filter_sublist flushOrder)
  revert hsub
  decide

/-- Witness for `c4_amended` at a concrete store state holding pending
PumpToken and Trade entities. -/
theorem c4_amended_witness :
    (storeManagerSave [("PumpToken", [(1 : Int)]), ("Trade", [2])]).map Prod.fst
      = flushOrder.filter (storeNonempty [("PumpToken", [(1 : Int)]), ("Trade", [2])]) ∧
    ¬ List.Sublist ["Trade", "PumpToken"]
        ((storeManagerSave [("PumpToken", [(1 : Int)]), ("Trade", [2])]).map Prod.fst) :=
  c4_amended [("PumpToken", [(1 : Int)]), ("Trade", [2])]

/-!
## Claims C7 and C10 — `WalletStatsService.applyTrade`

`src/services/walletStats.service.ts`: per-(wallet,token) and per-wallet
aggregates over `BigDecimal` SOL amounts.  `BigDecimal` values are modelled
as `Rat`; dividing a lamport amount by `10^9` is exact in both.
-/

/-- `WalletTokenStats` entity (`walletTokenStats.model.ts`). -/
structure WalletTokenStats where
  id : String
  wallet : String
  tokenId : String
  volumeSol : Rat
  realisedPnlSol : Rat
  buySol : Rat
  sellSol : Rat
  firstTradeTs : Int
  lastTradeTs : Int
  firstTradeSol : Rat
  lastTradeSol : Rat
deriving Repr, DecidableEq

/-- `WalletStats` entity (`walletStats.model.ts`). -/
structure WalletStats where
  id : String
  volumeSol : Rat
  realisedPnlSol : Rat
  buySol : Rat
  sellSol : Rat
  successTokensCount : Int
  tokenCount : Int
  lastTradeTs : Int
deriving Repr, DecidableEq

/-- `lamportsToSolDecimal` (`walletStats.service.ts:9-12`): convert a bigint
lamport amount to decimal SOL by dividing by `10^9` (exact). -/
def lamportsToSolDecimal (lamports : Int) : Rat :=
  (lamports : Rat) / 1000000000

/-- The fresh per-(wallet,token) record created when none exists
(`walletStats.service.ts:43-57`). -/
def freshWalletTokenStats (wallet tokenId : String) (amountSol : Rat)
    (ts : Int) : WalletTokenStats :=
  { id := wallet ++ "-" ++ tokenId, wallet := wallet, tokenId := tokenId
    volumeSol := 0, realisedPnlSol := 0, buySol := 0, sellSol := 0
    firstTradeTs := ts, lastTradeTs := ts
    firstTradeSol := amountSol, lastTradeSol := amountSol }

/-- The fresh per-wallet record created when none exists
(`walletStats.service.ts:70-81`). -/
def freshWalletStats (wallet : String) (ts : Int) : WalletStats :=
  { id := wallet, volumeSol := 0, realisedPnlSol := 0, buySol := 0
    sellSol := 0, successTokensCount := 0, tokenCount := 0, lastTradeTs := ts }

/-- `WalletStatsService.applyTrade` (`walletStats.service.ts:26-100`):
returns the updated `(WalletTokenStats, WalletStats)` pair written back to
the stores.  `tokenStats0`/`walletStats0` are the records found in the store
before the call (`none` when absent). -/
def applyTrade (wallet tokenId : String) (isBuy : Bool) (solAmount : Int)
    (ts : Int) (tokenStats0 : Option WalletTokenStats)
    (walletStats0 : Option WalletStats) : WalletTokenStats × WalletStats :=
  let amountSol := lamportsToSolDecimal solAmount
  let volDelta := amountSol
  let realisedDelta := if isBuy then amountSol * (-1) else amountSol
  let buyDelta := if isBuy then amountSol else 0
  let sellDelta := if isBuy then 0 else amountSol
  let base := tokenStats0.getD (freshWalletTokenStats wallet tokenId amountSol ts)
  let tokenStats : WalletTokenStats :=
    { base with
      volumeSol := base.volumeSol + volDelta
      realisedPnlSol := base.realisedPnlSol + realisedDelta
      buySol := base.buySol + buyDelta
      sellSol := base.sellSol + sellDelta
      lastTradeTs := ts
      lastTradeSol := amountSol }
  let wbase := walletStats0.getD (freshWalletStats wallet ts)
  let walletStats1 : WalletStats :=
    { wbase with
      volumeSol := wbase.volumeSol + volDelta
      realisedPnlSol := wbase.realisedPnlSol + realisedDelta
      buySol := wbase.buySol + buyDelta
      sellSol := wbase.sellSol + sellDelta
      lastTradeTs := if wbase.lastTradeTs > ts then wbase.lastTradeTs else ts }
  let walletStats2 : WalletStats :=
    if 0 < tokenStats.realisedPnlSol ∧ tokenStats.realisedPnlSol - realisedDelta ≤ 0 then
      { walletStats1 with successTokensCount := walletStats1.successTokensCount + 1 }
    else walletStats1
  let walletStats3 : WalletStats :=
    if tokenStats.volumeSol = volDelta then
      { walletStats2 with tokenCount := walletStats2.tokenCount + 1 }
    else walletStats2
  (tokenStats, walletStats3)

/-- First C7 counterexample trade: wallet `w` sells 1 SOL of token `t`
(no prior records). -/
def c7Step1 : WalletTokenStats × WalletStats :=
  applyTrade "w" "t" false 1000000000 1 none none

/-- Second C7 counterexample trade: the same wallet buys 2 SOL. -/
def c7Step2 : WalletTokenStats × WalletStats :=
  applyTrade "w" "t" true 2000000000 2 (some c7Step1.1) (some c7Step1.2)

/-- Third C7 counterexample trade: the same wallet sells 2 SOL again. -/
def c7Step3 : WalletTokenStats × WalletStats :=
  applyTrade "w" "t" false 2000000000 3 (some c7Step2.1) (some c7Step2.2)

/-- Claim C7, counterexample: for one (wallet, token) pair the running
realized P&L crosses from non-positive to positive twice (it runs
`0 → 1 → -1 → 1` over sell/buy/sell), and `successTokensCount` ends at `2`
— the counter is not incremented at most once per pair. -/
theorem c7_counterexample :
    c7Step3.2.successTokensCount = 2 ∧ ¬ (c7Step3.2.successTokensCount ≤ 1) := by
  have h : c7Step3.2.successTokensCount = 2 := by
    norm_num [c7Step3, c7Step2, c7Step1, applyTrade, lamportsToSolDecimal,
      freshWalletTokenStats, freshWalletStats]
  exact ⟨h, by rw [h]; norm_num⟩

/-- Claim C7, amended: `applyTrade` converts the lamport amount to SOL by an
exact division by `10^9`; the realized-P&L delta is the negation of that
amount on a buy and that amount on a sell; and `successTokensCount` is
incremented exactly when the pair's running realized P&L crosses from
non-positive to positive — at every such crossing, not at most once per
pair. -/
theorem c7_amended (wallet tokenId : String) (isBuy : Bool) (solAmount ts : Int)
    (tokenStats0 : Option WalletTokenStats) (walletStats0 : Option WalletStats) :
    let amountSol := (solAmount : Rat) / 1000000000
    let realisedDelta := if isBuy then -amountSol else amountSol
    let base := tokenStats0.getD (freshWalletTokenStats wallet tokenId amountSol ts)
    let wbase := walletStats0.getD (freshWalletStats wallet ts)
    let out := applyTrade wallet tokenId isBuy solAmount ts tokenStats0 walletStats0
    out.1.realisedPnlSol = base.realisedPnlSol + realisedDelta ∧
    lamportsToSolDecimal solAmount = amountSol ∧
    out.2.successTokensCount =
      wbase.successTokensCount +
        (if 0 < out.1.realisedPnlSol ∧ out.1.realisedPnlSol - realisedDelta ≤ 0
         then 1 else 0) := by
  intro amountSol realisedDelta base wbase out
  refine ⟨?_, rfl, ?_⟩
  · show (applyTrade wallet tokenId isBuy solAmount ts tokenStats0 walletStats0).1.realisedPnlSol = _
    simp only [applyTrade, lamportsToSolDecimal]
    cases isBuy <;> simp [amountSol, realisedDelta, base]
  · show (applyTrade wallet tokenId isBuy solAmount ts tokenStats0 walletStats0).2.successTokensCount = _
    simp only [applyTrade, lamportsToSolDecimal]
    have hdelta : (if isBuy then ((solAmount : Rat) / 1000000000) * (-1)
        else (solAmount : Rat) / 1000000000) = realisedDelta := by
      cases isBuy <;> simp [realisedDelta, amountSol]
    rw [hdelta]
    by_cases hcross :
        0 < (tokenStats0.getD (freshWalletTokenStats wallet tokenId
              ((solAmount : Rat) / 1000000000) ts)).realisedPnlSol + realisedDelta ∧
        (tokenStats0.getD (freshWalletTokenStats wallet tokenId
              ((solAmount : Rat) / 1000000000) ts)).realisedPnlSol + realisedDelta
          - realisedDelta ≤ 0
    · simp only [hcross, if_true]
      have hout : 0 < out.1.realisedPnlSol ∧ out.1.realisedPnlSol - realisedDelta ≤ 0 := by
        have h1 : out.1.realisedPnlSol = (tokenStats0.getD (freshWalletTokenStats wallet
            tokenId ((solAmount : Rat) / 1000000000) ts)).realisedPnlSol + realisedDelta := by
          simp only [out, applyTrade, lamportsToSolDecimal]
          rw [hdelta]
        rw [h1]
        exact hcross
      simp only [hout, if_true]
      split <;> simp [wbase]
    · simp only [hcross, if_false]
      have hout : ¬ (0 < out.1.realisedPnlSol ∧
          out.1.realisedPnlSol - realisedDelta ≤ 0) := by
        have h1 : out.1.realisedPnlSol = (tokenStats0.getD (freshWalletTokenStats wallet
            tokenId ((solAmount : Rat) / 1000000000) ts)).realisedPnlSol + realisedDelta := by
          simp only [out, applyTrade, lamportsToSolDecimal]
          rw [hdelta]
        rw [h1]
        exact hcross
      simp only [hout, if_false]
      split <;> simp [wbase]

/-- The accounting equations tying a `WalletTokenStats` record together:
volume is the sum of buy and sell totals, and realized P&L is sell minus
buy. -/
def wtsBalanced (t : WalletTokenStats) : Prop :=
  t.volumeSol = t.buySol + t.sellSol ∧ t.realisedPnlSol = t.sellSol - t.buySol

/-- The same accounting equations for a `WalletStats` record. -/
def wsBalanced (w : WalletStats) : Prop :=
  w.volumeSol = w.buySol + w.sellSol ∧ w.realisedPnlSol = w.sellSol - w.buySol

/-- Claim C10: `applyTrade` preserves `volumeSol = buySol + sellSol` and
`realisedPnlSol = sellSol - buySol` on both the per-(wallet,token) record
and the per-wallet record, provided the incoming records satisfied the
equations or did not exist. -/
theorem c10_applyTrade_balanced (wallet tokenId : String) (isBuy : Bool)
    (solAmount ts : Int) (tokenStats0 : Option WalletTokenStats)
    (walletStats0 : Option WalletStats)
    (ht : ∀ t, tokenStats0 = some t → wtsBalanced t)
    (hw : ∀ w, walletStats0 = some w → wsBalanced w) :
    wtsBalanced (applyTrade wallet tokenId isBuy solAmount ts tokenStats0 walletStats0).1 ∧
    wsBalanced (applyTrade wallet tokenId isBuy solAmount ts tokenStats0 walletStats0).2 := by
  have hbase : wtsBalanced (tokenStats0.getD (freshWalletTokenStats wallet tokenId
      (lamportsToSolDecimal solAmount) ts)) := by
    cases tokenStats0 with
    | none => simp [freshWalletTokenStats, wtsBalanced]
    | some t => exact ht t rfl
  have hwbase : wsBalanced (walletStats0.getD (freshWalletStats wallet ts)) := by
    cases walletStats0 with
    | none => simp [freshWalletStats, wsBalanced]
    | some w => exact hw w rfl
  obtain ⟨hb1, hb2⟩ := hbase
  obtain ⟨hw1, hw2⟩ := hwbase
  constructor
  · simp only [applyTrade, wtsBalanced]
    cases isBuy <;>
      constructor <;>
      simp [hb1, hb2] <;> ring
  · simp only [applyTrade, wsBalanced]
    -- neither conditional increment touches the four balance fields
    cases isBuy <;> split_ifs <;> constructor <;> simp [hw1, hw2] <;> ring_nf

/-- Witness for `c10_applyTrade_balanced`: a buy of 3 lamports applied to
absent records yields balanced per-(wallet,token) and per-wallet records. -/
theorem c10_applyTrade_balanced_witness :
    wtsBalanced (applyTrade "w" "t" true 3 5 none none).1 ∧
    wsBalanced (applyTrade "w" "t" true 3 5 none none).2 :=
  c10_applyTrade_balanced "w" "t" true 3 5 none none
    (by intro t h; cases h) (by intro w h; cases h)

/-!
## Claim C6 — placeholder tokens vs. real `create` records

`src/services/token.service.ts` (MemoryStore variant, the one paired with
the `StoreManager`-based processor): `getToken(mint, true)` creates a
placeholder whose name/symbol/creator are the mint address itself, saved to
the in-memory token store; `createToken(params)` first looks the id up in
the same store and returns the existing record unchanged when one is found
(`if (token) return token // already created inside same batch`).
-/

/-- Parameters of `TokenService.createToken`
(`src/services/token.service.ts:430-439`). -/
structure CreateTokenParams where
  id : String
  name : String
  symbol : String
  decimals : Int
  creator : String
  status : String
  createdAt : Int
  updatedAt : Int
deriving Repr, DecidableEq

/-- The `PumpToken` built from `createToken` parameters. -/
def mkPumpToken (p : CreateTokenParams) : PumpToken :=
  { id := p.id, name := p.name, symbol := p.symbol, decimals := p.decimals
    creator := p.creator, status := p.status, createdAt := p.createdAt
    updatedAt := p.updatedAt }

/-- The placeholder token built by `getToken(mint, createIfMissing = true)`
when the mint is nowhere to be found
(`src/services/token.service.ts:472-483`): name, symbol and creator are the
mint address, decimals 9, status active, timestamps from the wall clock
(`new Date()`), modelled by the `clock` argument. -/
def placeholderToken (mint : String) (clock : Int) : PumpToken :=
  { id := mint, name := mint, symbol := mint, decimals := 9, creator := mint
    status := "active", createdAt := clock, updatedAt := clock }

/-- `TokenService.createToken` (`src/services/token.service.ts:430-446`):
return the stored token unchanged if the id is already in the store,
otherwise build the token from the parameters and save it. -/
def createToken (store : List (String × PumpToken)) (p : CreateTokenParams) :
    List (String × PumpToken) :=
  match mapGet store p.id with
  | some _ => store
  | none => mapSet store p.id (mkPumpToken p)

/-- `TokenService.getToken` with `createIfMissing = true`
(`src/services/token.service.ts:454-487`): memory first, then the database
record (cached into the store), then a placeholder saved to the store. -/
def getTokenCreate (store : List (String × PumpToken)) (db : Option PumpToken)
    (mint : String) (clock : Int) : List (String × PumpToken) :=
  match mapGet store mint with
  | some _ => store
  | none =>
    match db with
    | some t => mapSet store mint t
    | none => mapSet store mint (placeholderToken mint clock)

/-- The real `create` parameters used in the C6 counterexample. -/
def c6RealParams : CreateTokenParams :=
  { id := "M", name := "Foo", symbol := "FOO", decimals := 6
    creator := "creatorAddr", status := "active", createdAt := 5, updatedAt := 5 }

/-- Claim C6, counterexample: after `getToken("M", true)` has created a
placeholder, processing the real `create` for the same mint leaves the
stored token's name equal to the mint address, not the real name `"Foo"` —
the placeholder is not overwritten. -/
theorem c6_counterexample :
    (mapGet (createToken (getTokenCreate [] none "M" 0) c6RealParams) "M").map
        PumpToken.name = some "M" ∧
    ¬ ((mapGet (createToken (getTokenCreate [] none "M" 0) c6RealParams) "M").map
        PumpToken.name = some "Foo") := by
  constructor
  · rfl
  · decide

/-- Claim C6, amended: when a token record for the mint is already in the
batch store (for example the placeholder created by `getToken(mint, true)`),
`createToken` returns early and leaves the store unchanged — the first
writer for a given id wins within a batch, and the real create's
name/symbol/creator are not applied; only when no record exists is the real
record stored. -/
theorem c6_amended (store : List (String × PumpToken)) (p : CreateTokenParams)
    (t : PumpToken) (hfound : mapGet store p.id = some t) :
    createToken store p = store ∧
    (∀ (s2 : List (String × PumpToken)), mapGet s2 p.id = none →
      mapGet (createToken s2 p) p.id = some (mkPumpToken p)) := by
  constructor
  · simp [createToken, hfound]
  · intro s2 hnone
    simp only [createToken, hnone]
    exact mapGet_mapSet_self s2 p.id (mkPumpToken p)

/-- Witness for `c6_amended`: a store holding the placeholder for `"M"` is
left unchanged by the real create, and an empty store receives the real
record. -/
theorem c6_amended_witness :
    createToken [("M", placeholderToken "M" 0)] c6RealParams
        = [("M", placeholderToken "M" 0)] ∧
    (∀ (s2 : List (String × PumpToken)), mapGet s2 c6RealParams.id = none →
      mapGet (createToken s2 c6RealParams) c6RealParams.id
        = some (mkPumpToken c6RealParams)) :=
  c6_amended [("M", placeholderToken "M" 0)] c6RealParams
    (placeholderToken "M" 0) (by decide)

/-!
## Claim C8 — buy/sell instructions without a decodable inner trade event

`src/services/trade.service.ts:163-186`: the inner instruction list is
filtered by program id, event-authority first account and the trade-event
discriminator; the filtered entries are then decoded in order, keeping the
last successful decode.  If the filter is empty, or no filtered entry
decodes, the outer instruction is skipped: the function `return`s without
creating a `Trade` and without throwing (the trailing `catch` swallows any
error anyway).
-/

/-- The indexed program id (`src/abi/pump-fun/index.ts`, compared
case-insensitively in the source; ids here are already normalized). -/
def PROGRAM_ID : String := "6ef8rrecthr5dkzon8nwu78hrvfckubj14m5ubewf6p"

/-- The event-authority marker account (`src/abi/pump-fun/index.ts`). -/
def EVENT_AUTHORITY : String := "ce6tqqehc9p8ketsn6jsjhk7utzk7nasjjnr7xxxp9f1"

/-- The 8-byte discriminator of the `tradeEventInstruction` layout
(`src/abi/pump-fun/instructions.ts`). -/
def TRADE_EVENT_D8 : String := "0xe445a52e51cb9a1d"

/-- An inner instruction as consumed by `processTradeInstruction`: program
id, first account, discriminator, and the trade-event payload its bytes
decode to (`none` when `tradeEventInstruction.decode` throws). -/
structure InnerInstruction where
  programId : String
  firstAccount : String
  d8 : String
  payload : Option TradeEvent
deriving Repr, DecidableEq

/-- The filter of `processTradeInstruction`
(`src/services/trade.service.ts:170-171`). -/
def matchesTradeEventMarker (i : InnerInstruction) : Bool :=
  i.programId == PROGRAM_ID && i.firstAccount == EVENT_AUTHORITY &&
    i.d8 == TRADE_EVENT_D8

/-- The decode loop of `processTradeInstruction`
(`src/services/trade.service.ts:174-182`): try each filtered entry in
order; a throwing decode keeps the previous value, so the result is the
last successful decode, or `none` if every decode fails. -/
def decodeLastTradeEvent (l : List InnerInstruction) : Option TradeEvent :=
  l.foldl (fun acc i =>
    match i.payload with
    | some ev => some ev
    | none => acc) none

/-- Outcome of `processTradeInstruction` up to trade creation: `skipped`
when the function returns before creating anything, `traded` when a decoded
event reaches the trade-creation path.  The function never propagates an
error (its body is wrapped in a catch-all), so no error outcome exists. -/
inductive TradeOutcome where
  | skipped
  | traded (ev : TradeEvent)
deriving Repr, DecidableEq

/-- The dispatch head of `processTradeInstruction`
(`src/services/trade.service.ts:163-191`): filter the inner instructions,
return early when nothing matches or nothing decodes, otherwise hand the
decoded event on. -/
def processTradeDispatch (inner : List InnerInstruction) : TradeOutcome :=
  let matched := inner.filter matchesTradeEventMarker
  if matched.isEmpty then .skipped
  else
    match decodeLastTradeEvent matched with
    | none => .skipped
    | some ev => .traded ev

/-- Claim C8: when no inner instruction both matches the event-authority
marker with the trade-event discriminator and decodes successfully, the
outer buy/sell instruction is skipped — no `Trade` record is created and no
error is raised. -/
theorem c8_no_event_skips (inner : List InnerInstruction)
    (h : ∀ i ∈ inner, matchesTradeEventMarker i = true → i.payload = none) :
    processTradeDispatch inner = .skipped := by
  have hdecode : ∀ (l : List InnerInstruction),
      (∀ i ∈ l, i.payload = none) → decodeLastTradeEvent l = none := by
    intro l hl
    have hgen : ∀ (acc : Option TradeEvent), acc = none →
        l.foldl (fun acc i =>
          match i.payload with
          | some ev => some ev
          | none => acc) acc = none := by
      induction l with
      | nil => intro acc hacc; simp [hacc]
      | cons a t ih =>
        intro acc hacc
        have ha : a.payload = none := hl a (List.mem_cons_self a t)
        have ht : ∀ i ∈ t, i.payload = none := fun i hi =>
          hl i (List.mem_cons_of_mem a hi)
        simp only [List.foldl_cons, ha]
        exact (fun hl2 => ih hl2) ht acc hacc
    exact hgen none rfl
  simp only [processTradeDispatch]
  by_cases hemp : (inner.filter matchesTradeEventMarker).isEmpty
  · simp [hemp]
  · have hnone : decodeLastTradeEvent (inner.filter matchesTradeEventMarker) = none := by
      apply hdecode
      intro i hi
      have hmem := List.mem_filter.mp hi
      exact h i hmem.1 hmem.2
    simp [hemp, hnone]

/-- Witness for `c8_no_event_skips`: an inner list with one matching but
undecodable entry and one non-matching entry is skipped. -/
theorem c8_no_event_skips_witness :
    processTradeDispatch
      [{ programId := PROGRAM_ID, firstAccount := EVENT_AUTHORITY,
         d8 := TRADE_EVENT_D8, payload := none },
       { programId := "otherProgram", firstAccount := "acct",
         d8 := "0x00", payload := none }] = .skipped :=
  c8_no_event_skips _ (by
    intro i hi hm
    rcases List.mem_cons.mp hi with h1 | h1
    · rw [h1]
    · rcases List.mem_cons.mp h1 with h2 | h2
      · rw [h2]
      · cases h2)

/-!
## Claim C9 — per-instruction failure isolation in the batch handler

`src/processor.ts:195-264`: the dispatch loop pushes each handler call as a
promise into `asyncTasks` inside a try/catch (so dispatching itself never
aborts the loop), then `await Promise.all(asyncTasks)` runs before the
flush calls.  Each handler wraps its body in a catch: the trade, withdraw
and initialize handlers swallow the error (log only), but the create
handler (`src/services/token.service.ts:346-349`) and the setParams handler
re-`throw` after logging.  A rethrown handler error rejects
`Promise.all`, which makes `handle` throw before the flush calls run.
-/

/-- The instruction kinds the processor dispatches on
(`src/processor.ts:213-247`). -/
inductive InstrKind where
  | initializeKind
  | setParamsKind
  | createKind
  | withdrawKind
  | buyOrSellKind
deriving Repr, DecidableEq

/-- A dispatched instruction together with whether its handler body raises
an error while processing it. -/
structure DispatchedInstr where
  kind : InstrKind
  bodyFails : Bool
deriving Repr, DecidableEq

/-- Result of a handler promise: `Except.error` when the handler lets the
error escape (rejecting the promise), `Except.ok` otherwise.
The trade handler catch (`trade.service.ts:323-325`), the withdraw handler
catch (`bondingCurve.service.ts:422-426`) and the initialize handler catch
(`global.service.ts:103-120`) swallow the error; the create handler catch
(`token.service.ts:346-349`) and the setParams handler catch
(`global.service.ts:168-171`) re-throw it. -/
def handlerResult (i : DispatchedInstr) : Except Unit Unit :=
  match i.kind with
  | .createKind => if i.bodyFails then .error () else .ok ()
  | .setParamsKind => if i.bodyFails then .error () else .ok ()
  | .initializeKind => .ok ()
  | .withdrawKind => .ok ()
  | .buyOrSellKind => .ok ()

/-- `await Promise.all`: succeeds only if every task promise resolved. -/
def awaitAll (tasks : List (Except Unit Unit)) : Except Unit Unit :=
  if tasks.all (fun t => t matches .ok _) then .ok () else .error ()

/-- Result of one `handle` call (`src/processor.ts:109-301`): how many
instructions were dispatched into `asyncTasks` (the loop itself never
aborts) and whether the flush calls at lines 259-264 were reached. -/
structure BatchHandlerRun where
  dispatchedCount : Nat
  flushRan : Bool
deriving Repr, DecidableEq

/-- The batch handler: every instruction is dispatched; the flush block runs
exactly when `Promise.all` over the handler promises resolved. -/
def runBatchHandler (instrs : List DispatchedInstr) : BatchHandlerRun :=
  { dispatchedCount := instrs.length
    flushRan := (awaitAll (instrs.map handlerResult)) matches .ok _ }

/-- A batch consisting of a single failing create instruction. -/
def c9FailingBatch : List DispatchedInstr :=
  [{ kind := .createKind, bodyFails := true }]

/-- Claim C9, counterexample: a batch containing one create instruction
whose handler raises is dispatched, but the rethrown error rejects
`Promise.all` and the batch-level flush never runs — a single instruction
failure does prevent the flush. -/
theorem c9_counterexample :
    (runBatchHandler c9FailingBatch).flushRan = false ∧
    (runBatchHandler c9FailingBatch).dispatchedCount = 1 := by
  constructor
  · rfl
  · rfl

/-- Claim C9, amended: the dispatch loop itself never aborts — every
instruction of the batch is dispatched regardless of failures — and errors
raised inside buy/sell, withdraw and initialize handlers are swallowed
inside the handler, so a batch whose failing instructions are all of those
kinds still reaches the flush; but errors in create and setParams handlers
are rethrown, and any such failure prevents the batch-level flush. -/
theorem c9_amended (instrs : List DispatchedInstr)
    (hsafe : ∀ i ∈ instrs, i.bodyFails = true →
      i.kind = .buyOrSellKind ∨ i.kind = .withdrawKind ∨ i.kind = .initializeKind) :
    (runBatchHandler instrs).dispatchedCount = instrs.length ∧
    (runBatchHandler instrs).flushRan = true ∧
    (∀ (js : List DispatchedInstr),
      ({ kind := .createKind, bodyFails := true } : DispatchedInstr) ∈ js →
      (runBatchHandler js).flushRan = false) := by
  refine ⟨rfl, ?_, ?_⟩
  · simp only [runBatchHandler, awaitAll]
    have hall : (instrs.map handlerResult).all (fun t => t matches .ok _) = true := by
      rw [List.all_eq_true]
      intro t ht
      rcases List.mem_map.mp ht with ⟨i, hi, hres⟩
      subst hres
      have hok : handlerResult i = .ok () := by
        by_cases hf : i.bodyFails = true
        · rcases hsafe i hi hf with h1 | h1 | h1 <;> simp [handlerResult, h1]
        · have hf2 : i.bodyFails = false := by simpa using hf
          cases hk : i.kind <;> simp [handlerResult, hk, hf2]
      rw [hok]
    simp [hall]
  · intro js hmem
    simp only [runBatchHandler, awaitAll]
    have : ¬ ((js.map handlerResult).all (fun t => t matches .ok _) = true) := by
      rw [List.all_eq_true]
      intro hall
      have := hall (handlerResult { kind := .createKind, bodyFails := true })
        (List.mem_map_of_mem handlerResult hmem)
      simp [handlerResult] at this
    simp [this]

/-- Witness for `c9_amended`: a batch holding one failing buy/sell
instruction and one failing withdraw instruction still flushes, while any
batch containing a failing create does not. -/
theorem c9_amended_witness :
    (runBatchHandler
      [{ kind := .buyOrSellKind, bodyFails := true },
       { kind := .withdrawKind, bodyFails := true }]).dispatchedCount = 2 ∧
    (runBatchHandler
      [{ kind := .buyOrSellKind, bodyFails := true },
       { kind := .withdrawKind, bodyFails := true }]).flushRan = true ∧
    (∀ (js : List DispatchedInstr),
      ({ kind := .createKind, bodyFails := true } : DispatchedInstr) ∈ js →
      (runBatchHandler js).flushRan = false) :=
  c9_amended
    [{ kind := .buyOrSellKind, bodyFails := true },
     { kind := .withdrawKind, bodyFails := true }]
    (by
      intro i hi hf
      rcases List.mem_cons.mp hi with h1 | h1
      · left; rw [h1]
      · rcases List.mem_cons.mp h1 with h2 | h2
        · right; left; rw [h2]
        · cases h2)

/-!
## Claim C2 — `processWithdrawInstruction`

`src/services/bondingCurve.service.ts:338-427` with the token operations of
the `StoreWithCache` token service in the same file family
(`src/services/token.service.ts:106-193`).  The withdraw flow:
zero the curve's real reserves (virtual reserves untouched), extract a
token id from the curve via
`typeof curve.token === 'string' ? curve.token : curve.token.toString()`,
get-or-create that token, mark it completed, and append one TokenCompleted
event with id `sig ++ "-" ++ slot`.  When `curve.token` holds the `PumpToken`
entity object, `toString()` yields `"[object Object]"`, not the token's id.
-/

/-- `TokenCompleted` entity (`tokenCompleted.model.ts`). -/
structure TokenCompleted where
  id : String
  tokenId : String
  user : String
  slot : Int
  timestamp : Int
deriving Repr, DecidableEq

/-- The entity state touched by a withdraw instruction: the bonding-curve
store, the token store and the TokenCompleted records created so far. -/
structure WithdrawState where
  curves : List (String × BondingCurve)
  tokens : List (String × PumpToken)
  completed : List TokenCompleted
deriving Repr, DecidableEq

/-- The placeholder token built by the `StoreWithCache` token service's
`getToken(mint, true)` (`src/services/token.service.ts:128-137`): name is
the first 12 characters of the id followed by `"..."`, symbol the first 6
characters, decimals 9, creator the id, wall-clock timestamps. -/
def cachePlaceholderToken (tokenId : String) (clock : Int) : PumpToken :=
  { id := tokenId, name := tokenId.take 12 ++ "...", symbol := tokenId.take 6
    decimals := 9, creator := tokenId, status := "active"
    createdAt := clock, updatedAt := clock }

/-- The placeholder curve inserted when the withdrawn curve is unknown
(`src/services/bondingCurve.service.ts:357-372`). -/
def withdrawPlaceholderCurve (bondingCurveId : String) (ts : Int) : BondingCurve :=
  { id := bondingCurveId, token := none, virtualSolReserves := 0
    virtualTokenReserves := 0, realSolReserves := 0, realTokenReserves := 0
    tokenTotalSupply := 0, feeBasisPoints := 0, createdAt := ts, updatedAt := ts }

/-- `processWithdrawInstruction`
(`src/services/bondingCurve.service.ts:338-427`).  The reserve update
mutates the cached curve entity (`updateBondingCurve` lines 259-265) before
any token-reference check, so it is always visible in the batch state. -/
def processWithdrawInstruction (st : WithdrawState) (bondingCurveId userId : String)
    (sig : String) (slot ts clock : Int) : WithdrawState :=
  -- get the curve, inserting a placeholder when it is unknown
  let curveAndStore :=
    match mapGet st.curves bondingCurveId with
    | some c => (c, st.curves)
    | none =>
      let pc := withdrawPlaceholderCurve bondingCurveId ts
      (pc, mapSet st.curves bondingCurveId pc)
  let curve := curveAndStore.1
  -- zero both real reserves, leave the virtual reserves untouched
  let curve2 := { curve with realSolReserves := 0, realTokenReserves := 0,
                             updatedAt := ts }
  let curves2 := mapSet curveAndStore.2 curve.id curve2
  -- extract a token id from the curve (entity objects stringify to
  -- "[object Object]"); fall back to the curve id when no token reference
  let tokenId :=
    match curve.token with
    | some r => r.jsToString
    | none => bondingCurveId
  -- get or create that token
  let tokenAndStore :=
    match mapGet st.tokens tokenId with
    | some t => (t, st.tokens)
    | none =>
      let pt := cachePlaceholderToken tokenId clock
      (pt, mapSet st.tokens tokenId pt)
  let token := tokenAndStore.1
  -- mark it completed
  let token2 := { token with status := "completed", updatedAt := ts }
  let tokens2 := mapSet tokenAndStore.2 token.id token2
  -- append exactly one TokenCompleted event with id sig ++ "-" ++ slot
  let ev : TokenCompleted :=
    { id := sig ++ "-" ++ toString slot, tokenId := token.id, user := userId
      slot := slot, timestamp := ts }
  { curves := curves2, tokens := tokens2, completed := st.completed ++ [ev] }

/-- The token `M` owned by the C2 curve. -/
def c2TokenM : PumpToken :=
  { id := "M", name := "Foo", symbol := "FOO", decimals := 6
    creator := "creatorAddr", status := "active", createdAt := 1, updatedAt := 1 }

/-- The existing curve `C`, owned by token `M` through its entity object. -/
def c2CurveC : BondingCurve :=
  { id := "C", token := some (.byEntity c2TokenM), virtualSolReserves := 50
    virtualTokenReserves := 60, realSolReserves := 5, realTokenReserves := 7
    tokenTotalSupply := 1000, feeBasisPoints := 30, createdAt := 1, updatedAt := 1 }

/-- The batch state before the C2 withdraw: curve `C` and token `M` loaded. -/
def c2State : WithdrawState :=
  { curves := [("C", c2CurveC)], tokens := [("M", c2TokenM)], completed := [] }

/-- The state after withdrawing curve `C` (signature `"sig"`, slot 9). -/
def c2After : WithdrawState :=
  processWithdrawInstruction c2State "C" "U" "sig" 9 100 42

/-- Claim C2, evaluated at its failing input: withdrawing existing curve `C`
owned by token `M` zeroes both real reserves, leaves both virtual reserves
unchanged, and creates exactly one TokenCompleted record with id
`"sig-9"` — but `M.status` stays `"active"`: the token id is extracted via
`curve.token.toString()`, which stringifies the entity object to
`"[object Object]"`, so a fresh placeholder token `"[object Object]"` is the
one created and marked `"completed"` instead of `M`. -/
theorem c2_code_bug_eval :
    ((mapGet c2After.curves "C").map BondingCurve.realSolReserves = some 0) ∧
    ((mapGet c2After.curves "C").map BondingCurve.realTokenReserves = some 0) ∧
    ((mapGet c2After.curves "C").map BondingCurve.virtualSolReserves = some 50) ∧
    ((mapGet c2After.curves "C").map BondingCurve.virtualTokenReserves = some 60) ∧
    (c2After.completed.map TokenCompleted.id = ["sig-9"]) ∧
    ((mapGet c2After.tokens "M").map PumpToken.status = some "active") ∧
    ¬ ((mapGet c2After.tokens "M").map PumpToken.status = some "completed") ∧
    ((mapGet c2After.tokens "[object Object]").map PumpToken.status
      = some "completed") := by
  refine ⟨rfl, rfl, rfl, rfl, ?_, rfl, by decide, rfl⟩
  show c2After.completed.map TokenCompleted.id = ["sig-9"]
  rfl

/-!
## Claim C5 — batch-boundary independence of the final records for one mint

Model of the batch handler (`src/processor.ts:109-301`) projected onto one
mint `M` and its bonding curve `C`, composed of the `StoreManager`-based
services it wires up: the MemoryStore token service
(`token.service.ts`, MemoryStore variant), the curve operations of
`bondingCurve.service.ts` and `trade.service.ts`, and the curve seed
parameters of `GlobalService.getCurveParameters`
(`global.service.ts:174-195`, constants in every batch).

Per batch the handler builds a fresh in-memory store, seeds it by bulk
prefetch of every token/curve id referenced in the batch
(`processor.ts:117-136`), dispatches the instructions in stream order, and
flushes (upserts) the in-memory records to the database.  The machine below
carries the in-memory record and the database record for the mint's token
and curve; reads follow the source (the token `find` of `createToken` is
memory-only, `getToken` falls back to the database and caches, curve reads
check the cache then the database), and all writes go to memory.

A curve synthesized by a trade on a missing curve is handed to
`saveForBatchLoading` (`trade.service.ts:319`), which stores it in a side
`batchList` that is invisible to `find` and is dropped at batch end unless
500 entries accumulate (`memory.store.ts`, batch-loading variant); in the
composition actually wired by `src/processor.ts` the call even throws
inside the handler's catch-all because the curve service has no such
method.  Either way the synthesized curve never reaches the store, so the
model leaves the curve state unchanged in that branch.

Wall-clock time enters through `new Date()` in the placeholder-token path
of `getToken` (`token.service.ts:480-481`); each instruction is therefore
paired with the wall-clock instant `clock` at which it is processed.

Persistence of the curve's token reference follows the schema and the ORM:
the `bonding_curve` row stores only the `token_id` foreign-key column, an
in-memory reference persists as that id (a raw string as itself, an entity
as its primary key), an entity whose `token` property is undefined leaves
the row's existing `token_id` untouched on update (the ORM skips undefined
properties), and the bulk prefetch (`findBy` with no relations,
`processor.ts:126-127`) returns curve entities whose `token` property is
undefined even when the row has a `token_id`.
-/

/-- The bonding-curve seed parameters returned by
`GlobalService.getCurveParameters` (`global.service.ts:174-195`); every
field the service ever assigns equals its default, so the values are the
same constants in every batch. -/
structure CurveParameters where
  initialVirtualTokenReserves : Int
  initialVirtualSolReserves : Int
  initialRealTokenReserves : Int
  tokenTotalSupply : Int
deriving Repr, DecidableEq

/-- `getCurveParameters` (`global.service.ts:174-195`). -/
def getCurveParameters : CurveParameters :=
  { initialVirtualTokenReserves := 1000000
    initialVirtualSolReserves := 1000000
    initialRealTokenReserves := 0
    tokenTotalSupply := 1000000000 }

/-- Characters stripped by `sanitizeString`
(`token.service.ts:368-376`, MemoryStore variant): null bytes and the
control characters PostgreSQL rejects (keeping tab, newline and carriage
return). -/
def isStrippedControlChar (c : Char) : Bool :=
  c.toNat == 0 || (1 ≤ c.toNat && c.toNat ≤ 8) || c.toNat == 11 ||
    c.toNat == 12 || (14 ≤ c.toNat && c.toNat ≤ 31)

/-- `sanitizeString` (`token.service.ts:368-376`, MemoryStore variant):
strip the disallowed control characters. -/
def sanitizeString (s : String) : String :=
  String.mk (s.toList.filter (fun c => !(isStrippedControlChar c)))

/-- The token built by `processCreateInstruction` from the decoded create
event (`token.service.ts:593-603`): sanitized name/symbol/creator, decimals
6, status active, block timestamps. -/
def mkCreatedToken (mint name symbol user : String) (ts : Int) : PumpToken :=
  { id := mint, name := sanitizeString name, symbol := sanitizeString symbol
    decimals := 6, creator := sanitizeString user, status := "active"
    createdAt := ts, updatedAt := ts }

/-- The curve effect of `createBondingCurve`
(`bondingCurve.service.ts:37-105`).  For an existing curve the reserve
fields are overwritten with the seed parameters and, when the token
reference was missing, `params.token` is assigned as-is
(`bondingCurve.service.ts:66-68`) — at that point still the raw mint-id
string passed by `processCreateInstruction`, because the token resolution
happens only further down, on the not-yet-existing path.  A new curve is
inserted after that resolution and carries the `PumpToken` entity. -/
def createBondingCurveEffect (existing : Option BondingCurve)
    (curveId mintId : String) (tok : PumpToken) (ts : Int) : BondingCurve :=
  match existing with
  | some c =>
    { c with
      virtualSolReserves := getCurveParameters.initialVirtualSolReserves
      virtualTokenReserves := getCurveParameters.initialVirtualTokenReserves
      realSolReserves := 0
      realTokenReserves := getCurveParameters.initialRealTokenReserves
      tokenTotalSupply := getCurveParameters.tokenTotalSupply
      feeBasisPoints := 30
      updatedAt := ts
      token := match c.token with
               | none => some (.byId mintId)
               | some r => some r }
  | none =>
    { id := curveId, token := some (.byEntity tok)
      virtualSolReserves := getCurveParameters.initialVirtualSolReserves
      virtualTokenReserves := getCurveParameters.initialVirtualTokenReserves
      realSolReserves := 0
      realTokenReserves := getCurveParameters.initialRealTokenReserves
      tokenTotalSupply := getCurveParameters.tokenTotalSupply
      feeBasisPoints := 30, createdAt := ts, updatedAt := ts }

/-- A persisted bonding-curve row: the `token` relation exists in the
database only as the `token_id` foreign-key column (`bonding_curve` table
in the migration). -/
structure BondingCurveRow where
  id : String
  tokenId : Option String
  virtualSolReserves : Int
  virtualTokenReserves : Int
  realSolReserves : Int
  realTokenReserves : Int
  tokenTotalSupply : Int
  feeBasisPoints : Int
  createdAt : Int
  updatedAt : Int
deriving Repr, DecidableEq

/-- The foreign-key value a token reference persists as: a raw string is
the id itself, an entity contributes its primary key. -/
def TokenRef.foreignId : TokenRef → String
  | .byId s => s
  | .byEntity t => t.id

/-- Persisting an in-memory curve entity: defined fields are written; an
undefined `token` relation is skipped by the ORM on update, leaving the
row's previous `token_id` (`oldTokenId`) in place. -/
def curveToRow (c : BondingCurve) (oldTokenId : Option String) :
    BondingCurveRow :=
  { id := c.id
    tokenId := match c.token with
               | some r => some r.foreignId
               | none => oldTokenId
    virtualSolReserves := c.virtualSolReserves
    virtualTokenReserves := c.virtualTokenReserves
    realSolReserves := c.realSolReserves
    realTokenReserves := c.realTokenReserves
    tokenTotalSupply := c.tokenTotalSupply
    feeBasisPoints := c.feeBasisPoints
    createdAt := c.createdAt
    updatedAt := c.updatedAt }

/-- Loading a curve row with no relations (the bulk prefetch `findBy` at
`processor.ts:126-127` and the plain `get` fallback): the `token` property
comes back undefined even when the row has a `token_id`. -/
def rowToCurve (r : BondingCurveRow) : BondingCurve :=
  { id := r.id
    token := none
    virtualSolReserves := r.virtualSolReserves
    virtualTokenReserves := r.virtualTokenReserves
    realSolReserves := r.realSolReserves
    realTokenReserves := r.realTokenReserves
    tokenTotalSupply := r.tokenTotalSupply
    feeBasisPoints := r.feeBasisPoints
    createdAt := r.createdAt
    updatedAt := r.updatedAt }

theorem curveToRow_rowToCurve (r : BondingCurveRow) :
    curveToRow (rowToCurve r) r.tokenId = r := rfl

/-- One decoded instruction for the mint, as dispatched by the batch
handler.  `tradeIx` carries the decoded inner trade event; timestamps are
the block timestamps from the instruction context. -/
inductive MintInstr where
  | createIx (name symbol user : String) (ts : Int)
  | tradeIx (ev : TradeEvent) (ts : Int)
  | withdrawIx (user sig : String) (slot ts : Int)
deriving Repr, DecidableEq

/-- Whether an instruction is a withdraw. -/
def MintInstr.isWithdraw : MintInstr → Bool
  | .withdrawIx _ _ _ _ => true
  | _ => false

/-- The per-batch machine for one mint: the fresh in-memory store entries
(`mem…`, full entities) and the durable-store rows (`db…`; the curve row
holds only the `token_id` foreign key). -/
structure MintMachine where
  memToken : Option PumpToken
  memCurve : Option BondingCurve
  dbToken : Option PumpToken
  dbCurve : Option BondingCurveRow
deriving Repr, DecidableEq

/-- The token effect of a withdraw once the token id extracted from the
curve is known: only when that id is the mint itself does the mint's token
record change (it is fetched or created, then marked completed); any other
id — `"[object Object]"` for an entity reference or the curve id — touches
records outside this mint's view. -/
def withdrawTokenEffect (mintId tokenId : String) (tokRead : Option PumpToken)
    (clock ts : Int) (memToken : Option PumpToken) : Option PumpToken :=
  if tokenId == mintId then
    some { (tokRead.getD (placeholderToken mintId clock)) with
           status := "completed", updatedAt := ts }
  else memToken

/-- One dispatch step on the per-batch machine, for the mint `mintId` and
its curve `curveId`.  `clock` is the wall-clock instant at which the
instruction is processed. -/
def stepMachine (mintId curveId : String) (m : MintMachine)
    (p : MintInstr × Int) : MintMachine :=
  let clock := p.2
  match p.1 with
  | .createIx name symbol user ts =>
    -- processCreateInstruction: createToken reads the memory store only
    -- (`tokenStore.find`), then createBondingCurve reads cache-then-db
    -- (a cache miss loads the row without its token relation)
    let theToken := m.memToken.getD (mkCreatedToken mintId name symbol user ts)
    let curveRead := m.memCurve.orElse (fun _ => m.dbCurve.map rowToCurve)
    { m with
      memToken := some theToken
      memCurve := some (createBondingCurveEffect curveRead curveId mintId
                          theToken ts) }
  | .tradeIx ev ts =>
    -- processTradeInstruction: getToken reads memory then database and
    -- caches the result (or a wall-clock placeholder) into memory; the
    -- curve is read cache-then-db, updated when present, and a synthesized
    -- curve never reaches the store
    let tokRead := m.memToken.orElse (fun _ => m.dbToken)
    let theToken := tokRead.getD (placeholderToken mintId clock)
    let curveRead := m.memCurve.orElse (fun _ => m.dbCurve.map rowToCurve)
    { m with
      memToken := some theToken
      memCurve := match curveRead with
                  | some c => some (tradeUpdateExistingCurve c ev ts)
                  | none => m.memCurve }
  | .withdrawIx _ _ _ ts =>
    -- processWithdrawInstruction: read or placeholder-create the curve,
    -- zero its real reserves, then complete the token whose id the curve's
    -- token reference stringifies to (the curve-id fallback fires whenever
    -- the reference is missing, in particular for every prefetched curve)
    let curveRead := m.memCurve.orElse (fun _ => m.dbCurve.map rowToCurve)
    let curve := curveRead.getD (withdrawPlaceholderCurve curveId ts)
    let tokenId := match curve.token with
                   | some r => r.jsToString
                   | none => curveId
    let tokRead := m.memToken.orElse (fun _ => m.dbToken)
    { m with
      memCurve := some { curve with realSolReserves := 0,
                                    realTokenReserves := 0, updatedAt := ts }
      memToken := withdrawTokenEffect mintId tokenId tokRead clock ts m.memToken }

/-- Bulk prefetch at batch start (`processor.ts:117-136`): the fresh
in-memory store is seeded with the database rows of the referenced ids,
loaded without relations. -/
def prefetchBatch (m : MintMachine) : MintMachine :=
  { m with memToken := m.dbToken, memCurve := m.dbCurve.map rowToCurve }

/-- The persisted rows the claim compares: the mint's Token row and its
curve row. -/
structure MintRowView where
  token : Option PumpToken
  curve : Option BondingCurveRow
deriving Repr, DecidableEq

/-- The rows a machine state denotes: what the database would hold after
flushing the in-memory entities over the current rows. -/
def MintMachine.rows (m : MintMachine) : MintRowView :=
  { token := m.memToken.orElse (fun _ => m.dbToken)
    curve := match m.memCurve with
             | some c => some (curveToRow c (m.dbCurve.bind BondingCurveRow.tokenId))
             | none => m.dbCurve }

/-- The flush at batch end (`processor.ts:259-264`, upserting every
in-memory entity): the database rows take the persisted form of the
in-memory entities and the in-memory store is discarded with the batch. -/
def flushBatch (m : MintMachine) : MintMachine :=
  { memToken := none, memCurve := none
    dbToken := m.memToken.orElse (fun _ => m.dbToken)
    dbCurve := match m.memCurve with
               | some c => some (curveToRow c (m.dbCurve.bind BondingCurveRow.tokenId))
               | none => m.dbCurve }

/-- One `handle` call over a batch of instructions (each paired with its
wall-clock instant): prefetch, dispatch in stream order, flush. -/
def runBatch (mintId curveId : String) (m : MintMachine)
    (batch : List (MintInstr × Int)) : MintMachine :=
  flushBatch (batch.foldl (stepMachine mintId curveId) (prefetchBatch m))

/-- A database holding only the given rows, between batches. -/
def dbMachine (dbToken : Option PumpToken) (dbCurve : Option BondingCurveRow) :
    MintMachine :=
  { memToken := none, memCurve := none, dbToken := dbToken, dbCurve := dbCurve }

/-- The row-level effect of a create on the curve: seed reserves, and a
`token_id` equal to the mint — every branch of `createBondingCurveEffect`
ends up persisting the mint id (raw string, kept reference with the mint's
id, or the mint's entity). -/
def createRowEffect (existing : Option BondingCurveRow) (curveId mintId : String)
    (ts : Int) : BondingCurveRow :=
  match existing with
  | some r =>
    { r with
      virtualSolReserves := getCurveParameters.initialVirtualSolReserves
      virtualTokenReserves := getCurveParameters.initialVirtualTokenReserves
      realSolReserves := 0
      realTokenReserves := getCurveParameters.initialRealTokenReserves
      tokenTotalSupply := getCurveParameters.tokenTotalSupply
      feeBasisPoints := 30
      updatedAt := ts
      tokenId := some mintId }
  | none =>
    { id := curveId, tokenId := some mintId
      virtualSolReserves := getCurveParameters.initialVirtualSolReserves
      virtualTokenReserves := getCurveParameters.initialVirtualTokenReserves
      realSolReserves := 0
      realTokenReserves := getCurveParameters.initialRealTokenReserves
      tokenTotalSupply := getCurveParameters.tokenTotalSupply
      feeBasisPoints := 30, createdAt := ts, updatedAt := ts }

/-- The row-level effect of a trade on the curve: the clamped reserve
update of `tradeUpdateExistingCurve`, with the `token_id` unchanged. -/
def tradeRowUpdate (r : BondingCurveRow) (ev : TradeEvent) (ts : Int) :
    BondingCurveRow :=
  let rs0 := if ev.isBuy then r.realSolReserves + ev.solAmount
             else r.realSolReserves - ev.solAmount
  let rt0 := if ev.isBuy then r.realTokenReserves - ev.tokenAmount
             else r.realTokenReserves + ev.tokenAmount
  { r with
    virtualSolReserves := ev.virtualSolReserves
    virtualTokenReserves := ev.virtualTokenReserves
    realSolReserves := if rs0 < 0 then 0 else rs0
    realTokenReserves := if rt0 < 0 then 0 else rt0
    updatedAt := ts }

/-- The dispatch step expressed directly on the persisted rows, for create
and trade instructions.  The withdraw case is left as the identity: the
simulation below is restricted to withdraw-free sequences, because a
withdraw resolves a different token id before and after a batch boundary
(the counterexample below exhibits this divergence). -/
def stepRowView (mintId curveId : String) (v : MintRowView)
    (p : MintInstr × Int) : MintRowView :=
  let clock := p.2
  match p.1 with
  | .createIx name symbol user ts =>
    { token := some (v.token.getD (mkCreatedToken mintId name symbol user ts))
      curve := some (createRowEffect v.curve curveId mintId ts) }
  | .tradeIx ev ts =>
    { token := some (v.token.getD (placeholderToken mintId clock))
      curve := match v.curve with
               | some r => some (tradeRowUpdate r ev ts)
               | none => v.curve }
  | .withdrawIx _ _ _ _ => v

/-- Along a batch, the in-memory store shadows every database row it was
seeded with, and every token identity reachable for this mint carries the
mint id: prefetch establishes this and every create/trade step preserves
it. -/
def mintMachineInv (mintId : String) (m : MintMachine) : Prop :=
  (m.dbToken.isSome → m.memToken.isSome) ∧
  (m.dbCurve.isSome → m.memCurve.isSome) ∧
  (∀ t, m.memToken = some t → t.id = mintId) ∧
  (∀ t, m.dbToken = some t → t.id = mintId) ∧
  (∀ c r, m.memCurve = some c → c.token = some r → r.foreignId = mintId)

theorem curveToRow_create_some (c : BondingCurve) (curveId mintId : String)
    (tok : PumpToken) (ts : Int) (dbFK : Option String)
    (h : ∀ r, c.token = some r → r.foreignId = mintId) :
    curveToRow (createBondingCurveEffect (some c) curveId mintId tok ts) dbFK
      = createRowEffect (some (curveToRow c dbFK)) curveId mintId ts := by
  cases hct : c.token with
  | none =>
    simp [curveToRow, createBondingCurveEffect, createRowEffect,
      TokenRef.foreignId, hct]
  | some r =>
    have hr := h r hct
    simp [curveToRow, createBondingCurveEffect, createRowEffect, hct, hr]

theorem curveToRow_create_none (curveId mintId : String) (tok : PumpToken)
    (ts : Int) (hid : tok.id = mintId) :
    curveToRow (createBondingCurveEffect none curveId mintId tok ts) none
      = createRowEffect none curveId mintId ts := by
  simp [curveToRow, createBondingCurveEffect, createRowEffect,
    TokenRef.foreignId, hid]

theorem curveToRow_trade (c : BondingCurve) (ev : TradeEvent) (ts : Int)
    (dbFK : Option String) :
    curveToRow (tradeUpdateExistingCurve c ev ts) dbFK
      = tradeRowUpdate (curveToRow c dbFK) ev ts := rfl

theorem stepMachine_rows_eq (mintId curveId : String) (m : MintMachine)
    (p : MintInstr × Int) (h : mintMachineInv mintId m)
    (hW : p.1.isWithdraw = false) :
    (stepMachine mintId curveId m p).rows = stepRowView mintId curveId m.rows p ∧
    mintMachineInv mintId (stepMachine mintId curveId m p) := by
  obtain ⟨hdt, hdc, hmt, hdbt, hmc⟩ := h
  rcases m with ⟨mt, mc, dt, dc⟩
  rcases p with ⟨i, clock⟩
  cases i with
  | withdrawIx u sig slot ts => simp [MintInstr.isWithdraw] at hW
  | createIx name symbol user ts =>
    -- the token written back always carries the mint id
    have htokid : (mt.getD (mkCreatedToken mintId name symbol user ts)).id
        = mintId := by
      cases mt with
      | none => rfl
      | some t => exact hmt t rfl
    cases mt with
    | some t =>
      have htid := hmt t rfl
      cases mc with
      | some c =>
        refine ⟨?_, ?_⟩
        · have hrow := curveToRow_create_some c curveId mintId t ts
            (dc.bind BondingCurveRow.tokenId) (fun r hr => hmc c r rfl hr)
          simp [stepMachine, stepRowView, MintMachine.rows, Option.orElse, hrow]
        · refine ⟨fun _ => rfl, fun _ => rfl, ?_, hdbt, ?_⟩
          · intro t2 ht2
            simp [stepMachine] at ht2
            rw [← ht2]; exact htid
          · intro c2 r2 hc2 hr2
            simp [stepMachine] at hc2
            rw [← hc2] at hr2
            simp only [createBondingCurveEffect] at hr2
            cases hct : c.token with
            | none =>
              rw [hct] at hr2
              simp at hr2
              rw [← hr2]; rfl
            | some r =>
              rw [hct] at hr2
              simp at hr2
              rw [← hr2]; exact hmc c r rfl hct
      | none =>
        -- a missing in-memory curve means no database row either
        have hdcn : dc = none := by
          cases dc with
          | none => rfl
          | some row => simp at hdc
        subst hdcn
        refine ⟨?_, ?_⟩
        · have hrow := curveToRow_create_none curveId mintId t ts htid
          simp [stepMachine, stepRowView, MintMachine.rows, Option.orElse,
            Option.bind, hrow]
        · refine ⟨fun _ => rfl, fun _ => rfl, ?_, hdbt, ?_⟩
          · intro t2 ht2
            simp [stepMachine] at ht2
            rw [← ht2]; exact htid
          · intro c2 r2 hc2 hr2
            simp [stepMachine] at hc2
            rw [← hc2] at hr2
            simp only [createBondingCurveEffect] at hr2
            simp at hr2
            rw [← hr2]
            exact htid
    | none =>
      have hdtn : dt = none := by
        cases dt with
        | none => rfl
        | some t => simp at hdt
      subst hdtn
      cases mc with
      | some c =>
        refine ⟨?_, ?_⟩
        · have hrow := curveToRow_create_some c curveId mintId
            (mkCreatedToken mintId name symbol user ts) ts
            (dc.bind BondingCurveRow.tokenId) (fun r hr => hmc c r rfl hr)
          simp [stepMachine, stepRowView, MintMachine.rows, Option.orElse, hrow]
        · refine ⟨fun _ => rfl, fun _ => rfl, ?_, hdbt, ?_⟩
          · intro t2 ht2
            simp [stepMachine] at ht2
            rw [← ht2]; rfl
          · intro c2 r2 hc2 hr2
            simp [stepMachine] at hc2
            rw [← hc2] at hr2
            simp only [createBondingCurveEffect] at hr2
            cases hct : c.token with
            | none =>
              rw [hct] at hr2
              simp at hr2
              rw [← hr2]; rfl
            | some r =>
              rw [hct] at hr2
              simp at hr2
              rw [← hr2]; exact hmc c r rfl hct
      | none =>
        have hdcn : dc = none := by
          cases dc with
          | none => rfl
          | some row => simp at hdc
        subst hdcn
        refine ⟨?_, ?_⟩
        · have hrow := curveToRow_create_none curveId mintId
            (mkCreatedToken mintId name symbol user ts) ts rfl
          simp [stepMachine, stepRowView, MintMachine.rows, Option.orElse,
            Option.bind, hrow]
        · refine ⟨fun _ => rfl, fun _ => rfl, ?_, hdbt, ?_⟩
          · intro t2 ht2
            simp [stepMachine] at ht2
            rw [← ht2]; rfl
          · intro c2 r2 hc2 hr2
            simp [stepMachine] at hc2
            rw [← hc2] at hr2
            simp only [createBondingCurveEffect] at hr2
            simp at hr2
            rw [← hr2]; rfl
  | tradeIx ev ts =>
    have hplid : ∀ (k : Int), (placeholderToken mintId k).id = mintId :=
      fun _ => rfl
    have htokid : ∀ t2, (mt.orElse (fun _ => dt)).getD
        (placeholderToken mintId clock) = t2 → t2.id = mintId := by
      intro t2 ht2
      cases mt with
      | some t => rw [← ht2]; exact hmt t rfl
      | none =>
        cases dt with
        | some t => rw [← ht2]; exact hdbt t rfl
        | none => rw [← ht2]; rfl
    cases mc with
    | some c =>
      refine ⟨?_, ?_⟩
      · have hrow := curveToRow_trade c ev ts (dc.bind BondingCurveRow.tokenId)
        simp [stepMachine, stepRowView, MintMachine.rows, Option.orElse, hrow]
      · refine ⟨fun _ => rfl, fun _ => rfl, ?_, hdbt, ?_⟩
        · intro t2 ht2
          simp [stepMachine] at ht2
          exact htokid t2 ht2
        · intro c2 r2 hc2 hr2
          simp [stepMachine] at hc2
          rw [← hc2] at hr2
          have hkeep : (tradeUpdateExistingCurve c ev ts).token = c.token := rfl
          rw [hkeep] at hr2
          exact hmc c r2 rfl hr2
    | none =>
      have hdcn : dc = none := by
        cases dc with
        | none => rfl
        | some row => simp at hdc
      subst hdcn
      refine ⟨?_, ?_⟩
      · simp [stepMachine, stepRowView, MintMachine.rows, Option.orElse]
      · refine ⟨fun _ => rfl, fun hs => by simp [stepMachine] at hs, ?_, hdbt, ?_⟩
        · intro t2 ht2
          simp [stepMachine] at ht2
          exact htokid t2 ht2
        · intro c2 r2 hc2 hr2
          simp [stepMachine] at hc2

theorem foldl_stepMachine_rows (mintId curveId : String)
    (l : List (MintInstr × Int)) (m : MintMachine)
    (h : mintMachineInv mintId m)
    (hW : ∀ p ∈ l, p.1.isWithdraw = false) :
    (l.foldl (stepMachine mintId curveId) m).rows =
      l.foldl (stepRowView mintId curveId) m.rows ∧
    mintMachineInv mintId (l.foldl (stepMachine mintId curveId) m) := by
  induction l generalizing m with
  | nil => exact ⟨rfl, h⟩
  | cons p t ih =>
    have hs := stepMachine_rows_eq mintId curveId m p h
      (hW p (List.mem_cons_self p t))
    have hrec := ih (stepMachine mintId curveId m p) hs.2
      (fun q hq => hW q (List.mem_cons_of_mem p hq))
    refine ⟨?_, hrec.2⟩
    simp only [List.foldl_cons]
    rw [hrec.1, hs.1]

theorem runBatch_rows (mintId curveId : String) (dt : Option PumpToken)
    (dc : Option BondingCurveRow) (l : List (MintInstr × Int))
    (hdt : ∀ t, dt = some t → t.id = mintId)
    (hW : ∀ p ∈ l, p.1.isWithdraw = false) :
    runBatch mintId curveId (dbMachine dt dc) l =
      dbMachine ((l.foldl (stepRowView mintId curveId) ⟨dt, dc⟩).token)
                ((l.foldl (stepRowView mintId curveId) ⟨dt, dc⟩).curve) ∧
    (∀ t, (l.foldl (stepRowView mintId curveId) ⟨dt, dc⟩).token = some t →
      t.id = mintId) := by
  have hpre : prefetchBatch (dbMachine dt dc) =
      (⟨dt, dc.map rowToCurve, dt, dc⟩ : MintMachine) := rfl
  have hinv : mintMachineInv mintId
      (⟨dt, dc.map rowToCurve, dt, dc⟩ : MintMachine) := by
    refine ⟨fun hs => hs, ?_, hdt, hdt, ?_⟩
    · intro hs
      cases dc with
      | none => simp at hs
      | some row => simp
    · intro c r hc hr
      cases dc with
      | none => simp at hc
      | some row =>
        simp only [Option.map] at hc
        have : c = rowToCurve row := by
          injection hc with hc2
          exact hc2.symm
        rw [this] at hr
        simp [rowToCurve] at hr
  have hrows : (MintMachine.rows
      (⟨dt, dc.map rowToCurve, dt, dc⟩ : MintMachine)) = ⟨dt, dc⟩ := by
    cases dt <;> cases dc <;>
      simp [MintMachine.rows, Option.orElse, Option.bind, curveToRow_rowToCurve]
  have hfold := foldl_stepMachine_rows mintId curveId l _ hinv hW
  have hflush : ∀ (m2 : MintMachine),
      flushBatch m2 = dbMachine m2.rows.token m2.rows.curve := fun _ => rfl
  constructor
  · rw [runBatch, hpre, hflush, hfold.1, hrows]
  · intro t ht
    have hrt : (l.foldl (stepRowView mintId curveId) (⟨dt, dc⟩ : MintRowView))
        = (l.foldl (stepMachine mintId curveId)
            (⟨dt, dc.map rowToCurve, dt, dc⟩ : MintMachine)).rows := by
      rw [hfold.1, hrows]
    rw [hrt] at ht
    obtain ⟨_, _, inv3, inv4, _⟩ := hfold.2
    rcases hM : (l.foldl (stepMachine mintId curveId)
        (⟨dt, dc.map rowToCurve, dt, dc⟩ : MintMachine)).memToken with _ | t2
    · have : (l.foldl (stepMachine mintId curveId)
          (⟨dt, dc.map rowToCurve, dt, dc⟩ : MintMachine)).dbToken = some t := by
        simpa [MintMachine.rows, Option.orElse, hM] using ht
      exact inv4 t this
    · have : t2 = t := by
        simpa [MintMachine.rows, Option.orElse, hM] using ht
      rw [← this]
      exact inv3 t2 hM

/-- Claim C5, amended: restricted to sequences of create/buy/sell
instructions (no withdraw), and with the wall-clock instants at which the
instructions are processed fixed alongside the sequence, processing the
sequence in one batch and processing it split across two consecutive
batches produce identical final machine states — in particular identical
final persisted Token and BondingCurve rows for the mint.  Withdraw
instructions are excluded because the curve's token relation does not
survive a batch boundary (the prefetch loads no relations), so a withdraw
resolves a different token id before and after a flush, as the
counterexample shows. -/
theorem c5_amended (mintId curveId : String) (dt : Option PumpToken)
    (dc : Option BondingCurveRow) (l1 l2 : List (MintInstr × Int))
    (hdt : ∀ t, dt = some t → t.id = mintId)
    (hW : ∀ p ∈ l1 ++ l2, p.1.isWithdraw = false) :
    runBatch mintId curveId (runBatch mintId curveId (dbMachine dt dc) l1) l2 =
      runBatch mintId curveId (dbMachine dt dc) (l1 ++ l2) := by
  have hW1 : ∀ p ∈ l1, p.1.isWithdraw = false :=
    fun p hp => hW p (List.mem_append_left l2 hp)
  have hW2 : ∀ p ∈ l2, p.1.isWithdraw = false :=
    fun p hp => hW p (List.mem_append_right l1 hp)
  obtain ⟨h1, hdt1⟩ := runBatch_rows mintId curveId dt dc l1 hdt hW1
  obtain ⟨hAll, _⟩ := runBatch_rows mintId curveId dt dc (l1 ++ l2) hdt hW
  obtain ⟨h2, _⟩ := runBatch_rows mintId curveId
    ((l1.foldl (stepRowView mintId curveId) ⟨dt, dc⟩).token)
    ((l1.foldl (stepRowView mintId curveId) ⟨dt, dc⟩).curve) l2 hdt1 hW2
  rw [h1, h2, hAll, List.foldl_append]

/-- The buy event used in the C5 counterexample and witness. -/
def c5BuyEvent : TradeEvent :=
  { mint := "M", solAmount := 5, tokenAmount := 7, isBuy := true, user := "U"
    virtualSolReserves := 100, virtualTokenReserves := 200 }

/-- A buy instruction for mint `M` (block timestamp 7). -/
def c5TradeInstr : MintInstr := .tradeIx c5BuyEvent 7

/-- Witness for `c5_amended`: a create followed by a buy, split between two
batches, ends in the same machine state as the one-batch run. -/
theorem c5_amended_witness :
    runBatch "M" "C" (runBatch "M" "C" (dbMachine none none)
        [(.createIx "Foo" "FOO" "creator" 11, 100)]) [(c5TradeInstr, 101)] =
      runBatch "M" "C" (dbMachine none none)
        ([(.createIx "Foo" "FOO" "creator" 11, 100)] ++ [(c5TradeInstr, 101)]) :=
  c5_amended "M" "C" none none
    [(.createIx "Foo" "FOO" "creator" 11, 100)] [(c5TradeInstr, 101)]
    (by intro t ht; cases ht)
    (by
      intro p hp
      have hp2 : p = ((.createIx "Foo" "FOO" "creator" 11 : MintInstr), (100 : Int))
          ∨ p = ((c5TradeInstr, 101) : MintInstr × Int) := by
        simpa using hp
      rcases hp2 with h1 | h1 <;> rw [h1] <;> rfl)

/-- The first batch of the C5 counterexample: a withdraw for curve `C`
(which creates a placeholder curve with no token reference), then the real
create for mint `M` (which assigns the raw mint-id string to the existing
curve's token reference). -/
def c5SeqA : List (MintInstr × Int) :=
  [(.withdrawIx "u" "s1" 1 10, 100), (.createIx "Foo" "FOO" "creator" 11, 101)]

/-- The second batch of the C5 counterexample: another withdraw for `C`. -/
def c5SeqB : List (MintInstr × Int) := [(.withdrawIx "u" "s2" 2 12, 102)]

/-- Claim C5, counterexample: the sequence withdraw, create, withdraw for
one mint, processed at identical wall-clock instants, completes token `M`
when run in one batch (the in-batch curve still holds the mint-id string,
so the final withdraw resolves token `M`) but leaves `M` active when split
before the final withdraw (the prefetched curve has no token relation, so
that withdraw falls back to the curve id) — the final records are not
independent of batch boundaries.  Moreover the same single-buy sequence
processed at wall-clock instants 0 and 1 yields different Token rows
(`createdAt` 0 versus 1), because the placeholder token is stamped with
`new Date()`: the final records are not a pure function of the instruction
sequence either. -/
theorem c5_counterexample :
    ((runBatch "M" "C" (dbMachine none none) (c5SeqA ++ c5SeqB)).dbToken.map
        PumpToken.status = some "completed") ∧
    ((runBatch "M" "C" (runBatch "M" "C" (dbMachine none none) c5SeqA)
        c5SeqB).dbToken.map PumpToken.status = some "active") ∧
    (runBatch "M" "C" (runBatch "M" "C" (dbMachine none none) c5SeqA) c5SeqB ≠
      runBatch "M" "C" (dbMachine none none) (c5SeqA ++ c5SeqB)) ∧
    ((runBatch "M" "C" (dbMachine none none) [(c5TradeInstr, 0)]).dbToken.map
        PumpToken.createdAt = some 0) ∧
    ((runBatch "M" "C" (dbMachine none none) [(c5TradeInstr, 1)]).dbToken.map
        PumpToken.createdAt = some 1) := by
  refine ⟨rfl, rfl, ?_, rfl, rfl⟩
  decide

end PumpIndexer
